import Mathlib

/-!
# The MTProto crypto worker (`app/nacl/mtproto_crypto.cc`)

A shallow embedding of `MtprotoCryptoInstance::HandleMessage` and of the AES-IGE
transform it calls, followed by the theorems about them.

* A message is a `Var`, the variant value of the host's messaging interface.
* A byte buffer is a `List Nat`; a mapped buffer is read through `readBytes`, which
  faults when the read runs past the end of the buffer.
* The block primitive of `aes.h` (`AES_encrypt` / `AES_decrypt`) is a parameter,
  `BlockCipher`; it works under a key schedule `AES_KEY`, which records whether it was
  built for encryption or for decryption.
* `HandleMessage` returns either the list of messages it posted, or the fault at
  which it stopped.
-/

namespace MtprotoCrypto

/-! ## The message values -/

/-- Modelled from the spec: the variant value `pp::Var` of the host interface
(`ppapi/cpp/var.h`, not part of the sources).  `null` is the empty value: what the
default constructor `pp::Var()` makes and what a dictionary returns for an absent key;
it is the specification's absence marker, written `null` in its wire shapes.  The
handler never tells the host's two empty values apart, so they are one constructor
here.  The payload of a `double` is never inspected and is kept as raw bits. -/
inductive Var where
  | null
  | bool (b : Bool)
  | int (n : Int)
  | double (bits : Nat)
  | string (s : String)
  | object
  | array (xs : List Var)
  | dictionary (kv : List (String × Var))
  | arrayBuffer (bytes : List Nat)

namespace Var

/-- The test `pp::Var::is_dictionary()`. -/
def is_dictionary : Var → Bool
  | dictionary _ => true
  | _ => false

/-- The test `pp::Var::is_int()`. -/
def is_int : Var → Bool
  | int _ => true
  | _ => false

/-- The test `pp::Var::is_array_buffer()`. -/
def is_array_buffer : Var → Bool
  | arrayBuffer _ => true
  | _ => false

/-- The conversion `pp::Var::AsInt()`: the integer held (a double is truncated by the
host; its payload is not modelled and reads as 0 here, as does any other value). -/
def AsInt : Var → Int
  | int n => n
  | _ => 0

/-- The conversion `pp::Var::AsString()`: the string held, and the empty string for a
value that is not a string. -/
def AsString : Var → String
  | string s => s
  | _ => ""

end Var

/-- The conversion `pp::VarDictionary::VarDictionary(var)`: the key/value pairs of a
dictionary value. -/
def VarDictionary (v : Var) : List (String × Var) :=
  match v with
  | .dictionary kv => kv
  | _ => []

/-- The lookup `pp::VarDictionary::Get(key)`: the value stored under `key`, and the
empty value when the key is absent. -/
def Get (d : List (String × Var)) (key : String) : Var :=
  match d.lookup key with
  | some v => v
  | none => Var.null

/-- The update `pp::VarDictionary::Set(key, value)`: replaces the value of a key that
is present, adds the pair otherwise. -/
def Set (d : List (String × Var)) (key : String) (value : Var) : List (String × Var) :=
  if d.any (fun p => p.1 == key) then
    d.map (fun p => if p.1 == key then (key, value) else p)
  else
    d ++ [(key, value)]

/-- The conversion `pp::VarArrayBuffer::VarArrayBuffer(var)` followed by `Map()`: the
bytes of an array buffer value. -/
def VarArrayBuffer (v : Var) : List Nat :=
  match v with
  | .arrayBuffer bytes => bytes
  | _ => []

/-! ## Faults and memory reads -/

/-- The ways a call of the handler can leave its normal course. -/
inductive Fault where
  -- a read past the end of a mapped buffer: an undefined memory access, after which
  -- nothing is said about the call
  | outOfBounds
  -- the transform rejected its arguments: the call fails and produces no result
  | precondition
  deriving DecidableEq, Repr

/-- Reading `n` bytes through a pointer to the start of a mapped buffer `mem`: the first
`n` bytes when the buffer has that many, a fault otherwise. -/
def readBytes (mem : List Nat) (n : Nat) : Except Fault (List Nat) :=
  if n ≤ mem.length then .ok (mem.take n) else .error Fault.outOfBounds

/-! ## The block primitive and the IGE transform -/

/-- The two kinds of key schedule of `aes.h`: the one `AES_set_encrypt_key` builds and the
one `AES_set_decrypt_key` builds. -/
inductive ScheduleKind where
  | forEncrypt
  | forDecrypt
  deriving DecidableEq, Repr

/-- Modelled from the spec: the key schedule `AES_KEY` of `aes.h` (spec section 6): the kind
of schedule and the key bytes it was expanded from. -/
structure AES_KEY where
  kind : ScheduleKind
  userKey : List Nat

/-- Modelled from the spec: the block-cipher primitive of `aes.h` (spec section 6), whose
code is not part of the sources.  `encrypt key x` stands for `AES_encrypt(x, out, &key)`
and `decrypt key x` for `AES_decrypt(x, out, &key)` on the 16-byte block `x` under the
schedule `key`.  Nothing relates `decrypt` under an encrypt schedule to `decrypt` under a
decrypt schedule. -/
structure BlockCipher where
  encrypt : AES_KEY → List Nat → List Nat
  decrypt : AES_KEY → List Nat → List Nat

/-- The schedule the spec's `BlockEncrypt(key, .)` works under. -/
def encryptSchedule (key : List Nat) : AES_KEY :=
  { kind := ScheduleKind.forEncrypt, userKey := key }

/-- The schedule the spec's `BlockDecrypt(key, .)` works under. -/
def decryptSchedule (key : List Nat) : AES_KEY :=
  { kind := ScheduleKind.forDecrypt, userKey := key }

/-- The direction argument of `AES_ige_encrypt`. -/
inductive Direction where
  | AES_ENCRYPT
  | AES_DECRYPT
  deriving DecidableEq, Repr

/-- The bytewise exclusive or of two blocks. -/
def xorBytes (a b : List Nat) : List Nat :=
  List.zipWith (fun x y => x ^^^ y) a b

/-- Modelled from the spec: `AES_set_encrypt_key(userKey, bits, &key)` of `aes.h`, the key
schedule of section 6.  It is given a pointer and a bit count, not the size of the
buffer behind the pointer: it reads `bits / 8` key bytes and builds the encrypt schedule
of those bytes. -/
def AES_set_encrypt_key (userKey : List Nat) (bits : Nat) : Except Fault AES_KEY :=
  match readBytes userKey (bits / 8) with
  | .error f => .error f
  | .ok k => .ok (encryptSchedule k)

/-- Modelled from the spec: the block loop of the IGE transform (spec section 4.2, step 2),
run over `n` successive 16-byte blocks of `buf` from the chaining pair
`(prevCipher, prevPlain)`.  Each output block takes the place of its input block. -/
def igeLoop (c : BlockCipher) (key : AES_KEY) (enc : Direction) :
    Nat → List Nat → List Nat → List Nat → List Nat
  | 0, _, _, _ => []
  | n + 1, prevCipher, prevPlain, buf =>
    let x := buf.take 16
    match enc with
    | .AES_ENCRYPT =>
      let ci := xorBytes (c.encrypt key (xorBytes x prevCipher)) prevPlain
      ci ++ igeLoop c key enc n ci x (buf.drop 16)
    | .AES_DECRYPT =>
      let pi := xorBytes (c.decrypt key (xorBytes x prevPlain)) prevCipher
      pi ++ igeLoop c key enc n x pi (buf.drop 16)

/-- Modelled from the spec: `AES_ige_encrypt(in, out, length, &key, ivec, enc)` of `aes.h`,
called in place (`in = out`), following section 4.2.  A `length` that is not a multiple
of 16 is a precondition violation: the transform fails and produces no result.
Otherwise the 32 bytes at `ivec` are read and split into the chaining pair, and the
`length / 16` blocks are transformed in order.  `length` is the only size the call
passes: `ivec` is a bare pointer and the key arrives as a finished schedule, so the
sizes of the key and IV buffers are not visible here. -/
def AES_ige_encrypt (c : BlockCipher) (buf : List Nat) (length : Nat) (key : AES_KEY)
    (ivec : List Nat) (enc : Direction) : Except Fault (List Nat) :=
  if length % 16 ≠ 0 then
    .error Fault.precondition
  else
    match readBytes ivec 32 with
    | .error f => .error f
    | .ok iv => .ok (igeLoop c key enc (length / 16) (iv.take 16) (iv.drop 16) buf)

/-- Modelled from the spec: `encryptIGE(key, iv, P)` of section 8, the transform in the
encrypt direction over the whole buffer, with `BlockEncrypt(key, .)` as block function:
`AES_encrypt` under the encrypt schedule of `key`. -/
def encryptIGE (c : BlockCipher) (key iv buf : List Nat) : Except Fault (List Nat) :=
  AES_ige_encrypt c buf buf.length (encryptSchedule key) iv Direction.AES_ENCRYPT

/-- Modelled from the spec: `decryptIGE(key, iv, C)` of section 8, the transform in the
decrypt direction over the whole buffer, with `BlockDecrypt(key, .)` as block function:
`AES_decrypt` under the decrypt schedule of `key`. -/
def decryptIGE (c : BlockCipher) (key iv buf : List Nat) : Except Fault (List Nat) :=
  AES_ige_encrypt c buf buf.length (decryptSchedule key) iv Direction.AES_DECRYPT

/-! ## The handler -/

/-- The handler `MtprotoCryptoInstance::HandleMessage(var_message)`.  The value is
`.ok posted`, the messages handed to `PostMessage` by a call that runs to its end, or
`.error f` for a call that leaves its normal course at the fault `f`.  The only
`PostMessage` is the last statement, so a call in which the transform fails has posted
nothing.  `ByteLength()` is a 32-bit count and the target is a 32-bit one, so `length` is
passed on unchanged. -/
def HandleMessage (c : BlockCipher) (var_message : Var) : Except Fault (List Var) :=
  if !var_message.is_dictionary then
    .ok []
  else
    let request := VarDictionary var_message
    let varTaskID := Get request "taskID"
    let varTask := Get request "task"
    if !varTaskID.is_int then
      .ok []
    else
      let _intTaskID := varTaskID.AsInt
      let strTask := varTask.AsString
      if strTask == "aes-encrypt" then
        let varData := Get request "bytes"
        let varKey := Get request "keyBytes"
        let varIv := Get request "ivBytes"
        if !varData.is_array_buffer || !varKey.is_array_buffer || !varIv.is_array_buffer then
          .ok []
        else
          let what := VarArrayBuffer varData
          let keyBuff := VarArrayBuffer varKey
          let ivBuff := VarArrayBuffer varIv
          let length := what.length
          match AES_set_encrypt_key keyBuff (32 * 8) with
          | .error f => .error f
          | .ok akey =>
            match AES_ige_encrypt c what length akey ivBuff Direction.AES_DECRYPT with
            | .error f => .error f
            | .ok abData =>
              let varResult := Var.arrayBuffer abData
              let response := Set (Set [] "taskID" varTaskID) "result" varResult
              .ok [Var.dictionary response]
      else
        let varResult := Var.null
        let response := Set (Set [] "taskID" varTaskID) "result" varResult
        .ok [Var.dictionary response]

/-! ## A small block primitive to evaluate the definitions on -/

/-- The bytes `0, 1, ..., 15`. -/
def toyPattern : List Nat := List.range 16

/-- The bytes `16, 17, ..., 31`. -/
def toyOtherPattern : List Nat := (List.range 16).map (fun i => i + 16)

/-- The pattern the small primitive mixes in: one when the schedule is of the kind the
operation is meant for, another when it is not. -/
def toyMask (meant : ScheduleKind) (key : AES_KEY) : List Nat :=
  if key.kind = meant then toyPattern else toyOtherPattern

/-- A block primitive for concrete evaluation: `encrypt` mixes in the first 16 key bytes
and a pattern and reverses the block; `decrypt` under the decrypt schedule of the same
key undoes `encrypt` under the encrypt schedule, `decrypt` under the encrypt schedule
does not. -/
def toyCipher : BlockCipher where
  encrypt := fun key x =>
    (xorBytes (xorBytes x (key.userKey.take 16)) (toyMask ScheduleKind.forEncrypt key)).reverse
  decrypt := fun key y =>
    xorBytes (xorBytes y.reverse (toyMask ScheduleKind.forDecrypt key)) (key.userKey.take 16)

/-- The all-zero buffer of `n` bytes. -/
def zeros (n : Nat) : List Nat := List.replicate n 0


/-! ## The dispatcher -/

theorem Get_of_lookup_none (d : List (String × Var)) (key : String)
    (h : d.lookup key = none) : Get d key = Var.null := by
  simp [Get, h]

theorem Get_of_lookup_some (d : List (String × Var)) (key : String) (v : Var)
    (h : d.lookup key = some v) : Get d key = v := by
  simp [Get, h]

theorem response_eq (varTaskID varResult : Var) :
    Set (Set [] "taskID" varTaskID) "result" varResult
      = [("taskID", varTaskID), ("result", varResult)] := by
  simp [Set]

/-- What the handler does with a dictionary whose `taskID` is an integer and whose task
string is not the recognised one. -/
theorem HandleMessage_other_task (c : BlockCipher) (d : List (String × Var)) (n : Int)
    (hid : Get d "taskID" = Var.int n) (hs : (Get d "task").AsString ≠ "aes-encrypt") :
    HandleMessage c (Var.dictionary d)
      = .ok [Var.dictionary [("taskID", Var.int n), ("result", Var.null)]] := by
  simp [HandleMessage, VarDictionary, Var.is_dictionary, hid, Var.is_int, hs, response_eq]

/-- C1. A dictionary message whose `taskID` is the integer `n` and whose `task` is a
string other than "aes-encrypt" gets exactly one response, `{taskID: n, result: null}`,
whatever else the message holds. -/
theorem unknown_task_acknowledged (c : BlockCipher) (d : List (String × Var)) (n : Int)
    (s : String) (hid : Get d "taskID" = Var.int n) (htask : Get d "task" = Var.string s)
    (hs : s ≠ "aes-encrypt") :
    HandleMessage c (Var.dictionary d)
      = .ok [Var.dictionary [("taskID", Var.int n), ("result", Var.null)]] := by
  apply HandleMessage_other_task c d n hid
  simpa [htask, Var.AsString] using hs

theorem unknown_task_acknowledged_witness :
    HandleMessage toyCipher
        (Var.dictionary [("task", Var.string "unknown-op"), ("taskID", Var.int 7),
          ("bytes", Var.arrayBuffer (zeros 16))])
      = .ok [Var.dictionary [("taskID", Var.int 7), ("result", Var.null)]] :=
  unknown_task_acknowledged toyCipher _ 7 "unknown-op" (by rfl) (by rfl) (by decide)

/-- C2. A message that is not a dictionary, or a dictionary whose `taskID` is absent or is
not an integer, gets no response at all, whatever its task name and other fields. -/
theorem malformed_id_dropped (c : BlockCipher) (msg : Var)
    (h : (∀ d, msg ≠ Var.dictionary d) ∨
      ∃ d, msg = Var.dictionary d ∧
        (d.lookup "taskID" = none ∨
          ∃ v, d.lookup "taskID" = some v ∧ ∀ n, v ≠ Var.int n)) :
    HandleMessage c msg = .ok [] := by
  rcases h with h | ⟨d, rfl, h⟩
  · cases msg <;> simp [HandleMessage, Var.is_dictionary] at h ⊢
  · have hint : (Get d "taskID").is_int = false := by
      rcases h with h | ⟨v, hv, hn⟩
      · simp [Get, h, Var.is_int]
      · rw [Get_of_lookup_some d _ v hv]
        cases v <;> simp [Var.is_int] at hn ⊢
    simp [HandleMessage, VarDictionary, Var.is_dictionary, hint]

theorem malformed_id_dropped_witness :
    HandleMessage toyCipher
        (Var.dictionary [("task", Var.string "aes-encrypt"), ("taskID", Var.string "7"),
          ("bytes", Var.arrayBuffer (zeros 16)), ("keyBytes", Var.arrayBuffer (zeros 32)),
          ("ivBytes", Var.arrayBuffer (zeros 32))])
      = .ok [] :=
  malformed_id_dropped toyCipher _
    (Or.inr ⟨_, rfl, Or.inr ⟨Var.string "7", by rfl, by intro n hn; cases hn⟩⟩)

/-- C3. A dictionary message with an integer `taskID` and task "aes-encrypt" in which one
of `bytes`, `keyBytes`, `ivBytes` is absent or is not a byte buffer gets no response: in
particular no null acknowledgment. -/
theorem malformed_fields_dropped (c : BlockCipher) (d : List (String × Var)) (n : Int)
    (hid : Get d "taskID" = Var.int n) (htask : Get d "task" = Var.string "aes-encrypt")
    (hbad : ∃ f, f ∈ ["bytes", "keyBytes", "ivBytes"] ∧
      (d.lookup f = none ∨ ∃ v, d.lookup f = some v ∧ ∀ b, v ≠ Var.arrayBuffer b)) :
    HandleMessage c (Var.dictionary d) = .ok [] := by
  obtain ⟨f, hf, hbad⟩ := hbad
  have hnot : (Get d f).is_array_buffer = false := by
    rcases hbad with h | ⟨v, hv, hn⟩
    · simp [Get, h, Var.is_array_buffer]
    · rw [Get_of_lookup_some d _ v hv]
      cases v <;> simp [Var.is_array_buffer] at hn ⊢
  simp only [List.mem_cons, List.mem_singleton, List.not_mem_nil, or_false] at hf
  rcases hf with rfl | rfl | rfl <;>
    simp [HandleMessage, VarDictionary, Var.is_dictionary, hid, htask, Var.is_int,
      Var.AsString, hnot]

theorem malformed_fields_dropped_witness :
    HandleMessage toyCipher
        (Var.dictionary [("taskID", Var.int 7), ("task", Var.string "aes-encrypt"),
          ("bytes", Var.arrayBuffer (zeros 16)), ("ivBytes", Var.arrayBuffer (zeros 32))])
      = .ok [] :=
  malformed_fields_dropped toyCipher _ 7 (by rfl) (by rfl)
    ⟨"keyBytes", by simp, Or.inl (by rfl)⟩

/-- C10. A dictionary message with an integer `taskID` `n` whose `task` is absent or is not
a string is acknowledged with `{taskID: n, result: null}`: its task string reads as the
empty string, and nothing but the `taskID` check stands before the comparison of the
task name. -/
theorem missing_task_acknowledged (c : BlockCipher) (d : List (String × Var)) (n : Int)
    (hid : Get d "taskID" = Var.int n)
    (htask : d.lookup "task" = none ∨
      ∃ v, d.lookup "task" = some v ∧ ∀ s, v ≠ Var.string s) :
    (Get d "task").AsString = "" ∧
    HandleMessage c (Var.dictionary d)
      = .ok [Var.dictionary [("taskID", Var.int n), ("result", Var.null)]] := by
  have hstr : (Get d "task").AsString = "" := by
    rcases htask with h | ⟨v, hv, hn⟩
    · simp [Get, h, Var.AsString]
    · rw [Get_of_lookup_some d _ v hv]
      cases v <;> simp [Var.AsString] at hn ⊢
  refine ⟨hstr, HandleMessage_other_task c d n hid ?_⟩
  rw [hstr]
  decide

theorem missing_task_acknowledged_witness :
    (Get [("taskID", Var.int 3), ("task", Var.int 5)] "task").AsString = "" ∧
    HandleMessage toyCipher (Var.dictionary [("taskID", Var.int 3), ("task", Var.int 5)])
      = .ok [Var.dictionary [("taskID", Var.int 3), ("result", Var.null)]] :=
  missing_task_acknowledged toyCipher _ 3 (by rfl)
    (Or.inr ⟨Var.int 5, by rfl, by intro s hs; cases hs⟩)

/-! ## The chaining transform -/

theorem xorBytes_length (a b : List Nat) :
    (xorBytes a b).length = min a.length b.length := by
  simp [xorBytes]

theorem xorBytes_cancel (a b : List Nat) (h : a.length ≤ b.length) :
    xorBytes (xorBytes a b) b = a := by
  induction a generalizing b with
  | nil => simp [xorBytes]
  | cons x xs ih =>
    cases b with
    | nil => simp at h
    | cons y ys =>
      have h2 : xs.length ≤ ys.length := by simpa using h
      have := ih ys h2
      simp only [xorBytes] at this ⊢
      simp [this, Nat.xor_assoc]

theorem take_block_length (buf : List Nat) (n : Nat) (h : buf.length = 16 * (n + 1)) :
    (buf.take 16).length = 16 := by
  simp [List.length_take]; omega

theorem drop_block_length (buf : List Nat) (n : Nat) (h : buf.length = 16 * (n + 1)) :
    (buf.drop 16).length = 16 * n := by
  simp [List.length_drop]; omega

/-- The decrypt loop keeps the length of the buffer when the primitive returns 16-byte
blocks. -/
theorem igeLoop_decrypt_length (c : BlockCipher) (key : AES_KEY)
    (hlen : ∀ x, x.length = 16 → (c.decrypt key x).length = 16) (n : Nat) :
    ∀ (pc pp buf : List Nat), pc.length = 16 → pp.length = 16 → buf.length = 16 * n →
      (igeLoop c key Direction.AES_DECRYPT n pc pp buf).length = 16 * n := by
  induction n with
  | zero => intro pc pp buf _ _ _; simp [igeLoop]
  | succ n ih =>
    intro pc pp buf hpc hpp hbuf
    have hx := take_block_length buf n hbuf
    have hr := drop_block_length buf n hbuf
    have hd : (c.decrypt key (xorBytes (buf.take 16) pp)).length = 16 :=
      hlen _ (by rw [xorBytes_length, hx, hpp]; rfl)
    have hp : (xorBytes (c.decrypt key (xorBytes (buf.take 16) pp)) pc).length = 16 := by
      rw [xorBytes_length, hd, hpc]; rfl
    simp only [igeLoop, List.length_append, hp]
    rw [ih _ _ _ hx hp hr]
    omega

/-- The encrypt loop keeps the length of the buffer when the primitive returns 16-byte
blocks. -/
theorem igeLoop_encrypt_length (c : BlockCipher) (key : AES_KEY)
    (hlen : ∀ x, x.length = 16 → (c.encrypt key x).length = 16) (n : Nat) :
    ∀ (pc pp buf : List Nat), pc.length = 16 → pp.length = 16 → buf.length = 16 * n →
      (igeLoop c key Direction.AES_ENCRYPT n pc pp buf).length = 16 * n := by
  induction n with
  | zero => intro pc pp buf _ _ _; simp [igeLoop]
  | succ n ih =>
    intro pc pp buf hpc hpp hbuf
    have hx := take_block_length buf n hbuf
    have hr := drop_block_length buf n hbuf
    have hd : (c.encrypt key (xorBytes (buf.take 16) pc)).length = 16 :=
      hlen _ (by rw [xorBytes_length, hx, hpc]; rfl)
    have hp : (xorBytes (c.encrypt key (xorBytes (buf.take 16) pc)) pp).length = 16 := by
      rw [xorBytes_length, hd, hpp]; rfl
    simp only [igeLoop, List.length_append, hp]
    rw [ih _ _ _ hp hx hr]
    omega

/-- Decrypting what the encrypt loop produced, from the same chaining pair, gives the
input back. -/
theorem igeLoop_round_trip (c : BlockCipher) (key keyd : AES_KEY)
    (hlen : ∀ x, x.length = 16 → (c.encrypt key x).length = 16)
    (hinv : ∀ x, x.length = 16 → c.decrypt keyd (c.encrypt key x) = x) (n : Nat) :
    ∀ (pc pp buf : List Nat), pc.length = 16 → pp.length = 16 → buf.length = 16 * n →
      igeLoop c keyd Direction.AES_DECRYPT n pc pp
        (igeLoop c key Direction.AES_ENCRYPT n pc pp buf) = buf := by
  induction n with
  | zero => intro pc pp buf _ _ hbuf; simpa [igeLoop] using (List.length_eq_zero.mp hbuf).symm
  | succ n ih =>
    intro pc pp buf hpc hpp hbuf
    have hx := take_block_length buf n hbuf
    have hr := drop_block_length buf n hbuf
    have hin : (xorBytes (buf.take 16) pc).length = 16 := by
      rw [xorBytes_length, hx, hpc]; rfl
    have hd : (c.encrypt key (xorBytes (buf.take 16) pc)).length = 16 := hlen _ hin
    have hci : (xorBytes (c.encrypt key (xorBytes (buf.take 16) pc)) pp).length = 16 := by
      rw [xorBytes_length, hd, hpp]; rfl
    simp only [igeLoop]
    rw [List.take_left' hci, List.drop_left' hci]
    rw [xorBytes_cancel _ pp (by omega), hinv _ hin, xorBytes_cancel _ pc (by omega)]
    rw [ih _ _ _ hci hx hr, List.take_append_drop]

theorem readBytes_iv (iv : List Nat) (h : 32 ≤ iv.length) :
    readBytes iv 32 = .ok (iv.take 32) := by
  simp [readBytes, h]

/-- C5. Round trip of the IGE transform: with a 32-byte key, a 32-byte IV and a plaintext
whose length is a positive multiple of 16, and a block primitive that returns 16-byte
blocks and whose `BlockDecrypt(key, .)` undoes its `BlockEncrypt(key, .)`, decrypting
the encryption of the plaintext gives the plaintext back. -/
theorem ige_round_trip (c : BlockCipher) (key iv P : List Nat)
    (hkey : key.length = 32) (hiv : iv.length = 32)
    (hpos : 0 < P.length) (hP : P.length % 16 = 0)
    (hlen : ∀ x, x.length = 16 → (c.encrypt (encryptSchedule key) x).length = 16)
    (hinv : ∀ x, x.length = 16 →
      c.decrypt (decryptSchedule key) (c.encrypt (encryptSchedule key) x) = x) :
    (encryptIGE c key iv P >>= decryptIGE c key iv) = .ok P := by
  have _ := hkey
  have _ := hpos
  have hbuf : P.length = 16 * (P.length / 16) := by omega
  have h1 : ((iv.take 32).take 16).length = 16 := by simp [List.length_take]; omega
  have h2 : ((iv.take 32).drop 16).length = 16 := by
    simp [List.length_drop, List.length_take]; omega
  have henc := igeLoop_encrypt_length c (encryptSchedule key) hlen (P.length / 16) _ _ P
    h1 h2 hbuf
  have hrt := igeLoop_round_trip c (encryptSchedule key) (decryptSchedule key) hlen hinv
    (P.length / 16) _ _ P h1 h2 hbuf
  have hE : encryptIGE c key iv P = .ok (igeLoop c (encryptSchedule key)
      Direction.AES_ENCRYPT (P.length / 16) ((iv.take 32).take 16)
      ((iv.take 32).drop 16) P) := by
    simp [encryptIGE, AES_ige_encrypt, hP, readBytes_iv iv (by omega)]
  rw [hE]
  show decryptIGE c key iv _ = _
  have hlen16 : 16 * (P.length / 16) % 16 = 0 := by omega
  simp only [decryptIGE, AES_ige_encrypt, henc, hlen16, readBytes_iv iv (by omega)]
  rw [← hbuf] at hlen16 ⊢
  simp [hrt]

/-! ## The small block primitive -/

theorem toyPattern_length : toyPattern.length = 16 := by
  simp [toyPattern]

theorem toyOtherPattern_length : toyOtherPattern.length = 16 := by
  simp [toyOtherPattern]

theorem toyMask_length (meant : ScheduleKind) (key : AES_KEY) :
    (toyMask meant key).length = 16 := by
  unfold toyMask
  split
  · exact toyPattern_length
  · exact toyOtherPattern_length

theorem toyCipher_encrypt_length (key : AES_KEY) (x : List Nat)
    (hk : 16 ≤ key.userKey.length) (hx : x.length = 16) :
    (toyCipher.encrypt key x).length = 16 := by
  simp only [toyCipher, List.length_reverse, xorBytes_length, List.length_take, hx,
    toyMask_length]
  omega

theorem toyCipher_decrypt_length (key : AES_KEY) (x : List Nat)
    (hk : 16 ≤ key.userKey.length) (hx : x.length = 16) :
    (toyCipher.decrypt key x).length = 16 := by
  simp only [toyCipher, List.length_reverse, xorBytes_length, List.length_take, hx,
    toyMask_length]
  omega

theorem toyCipher_decrypt_encrypt (key x : List Nat) (hk : 16 ≤ key.length)
    (hx : x.length = 16) :
    toyCipher.decrypt (decryptSchedule key) (toyCipher.encrypt (encryptSchedule key) x)
      = x := by
  have hk16 : (key.take 16).length = 16 := by simp [List.length_take]; omega
  have hm1 : toyMask ScheduleKind.forEncrypt (encryptSchedule key) = toyPattern := by
    simp [toyMask, encryptSchedule]
  have hm2 : toyMask ScheduleKind.forDecrypt (decryptSchedule key) = toyPattern := by
    simp [toyMask, decryptSchedule]
  simp only [toyCipher, List.reverse_reverse, hm1, hm2]
  have hu1 : (encryptSchedule key).userKey = key := rfl
  have hu2 : (decryptSchedule key).userKey = key := rfl
  rw [hu1, hu2]
  rw [xorBytes_cancel _ toyPattern (by rw [xorBytes_length, toyPattern_length]; omega)]
  rw [xorBytes_cancel _ _ (by omega)]

theorem ige_round_trip_witness :
    (encryptIGE toyCipher (zeros 32) (List.range 32) (List.range 48)
        >>= decryptIGE toyCipher (zeros 32) (List.range 32)) = .ok (List.range 48) :=
  ige_round_trip toyCipher (zeros 32) (List.range 32) (List.range 48)
    (by simp [zeros]) (by simp) (by simp) (by simp)
    (fun x hx => toyCipher_encrypt_length _ x (by simp [zeros, encryptSchedule]) hx)
    (fun x hx => toyCipher_decrypt_encrypt _ x (by simp [zeros]) hx)

/-! ## The recognised task -/

/-- What the handler does with a request for the recognised task whose three fields are
byte buffers: an encrypt schedule is set from 32 bytes at `keyBytes`, the transform is
run with `AES_DECRYPT` over `bytes`, and the buffer is posted back. -/
theorem HandleMessage_aes (c : BlockCipher) (d : List (String × Var)) (n : Int)
    (data key iv : List Nat)
    (hid : Get d "taskID" = Var.int n) (htask : Get d "task" = Var.string "aes-encrypt")
    (hdata : Get d "bytes" = Var.arrayBuffer data)
    (hkey : Get d "keyBytes" = Var.arrayBuffer key)
    (hiv : Get d "ivBytes" = Var.arrayBuffer iv) :
    HandleMessage c (Var.dictionary d) =
      match AES_set_encrypt_key key (32 * 8) with
      | .error f => .error f
      | .ok akey =>
        match AES_ige_encrypt c data data.length akey iv Direction.AES_DECRYPT with
        | .error f => .error f
        | .ok out =>
          .ok [Var.dictionary [("taskID", Var.int n), ("result", Var.arrayBuffer out)]] := by
  simp only [HandleMessage, VarDictionary, Var.is_dictionary, hid, htask, hdata, hkey, hiv,
    Var.is_int, Var.AsString, Var.is_array_buffer, VarArrayBuffer, response_eq]
  simp

/-- With key and IV buffers of at least 32 bytes and a block-aligned data buffer the
handler posts what the block loop, run with `AES_DECRYPT` under the encrypt schedule of
the first 32 key bytes and seeded from the first 32 IV bytes, makes of the data. -/
theorem HandleMessage_aes_ok (c : BlockCipher) (d : List (String × Var)) (n : Int)
    (data key iv : List Nat)
    (hid : Get d "taskID" = Var.int n) (htask : Get d "task" = Var.string "aes-encrypt")
    (hdata : Get d "bytes" = Var.arrayBuffer data)
    (hkey : Get d "keyBytes" = Var.arrayBuffer key)
    (hiv : Get d "ivBytes" = Var.arrayBuffer iv)
    (hklen : 32 ≤ key.length) (hivlen : 32 ≤ iv.length) (hal : data.length % 16 = 0) :
    HandleMessage c (Var.dictionary d) =
      .ok [Var.dictionary [("taskID", Var.int n), ("result", Var.arrayBuffer
        (igeLoop c (encryptSchedule (key.take 32)) Direction.AES_DECRYPT (data.length / 16)
          ((iv.take 32).take 16) ((iv.take 32).drop 16) data))]] := by
  rw [HandleMessage_aes c d n data key iv hid htask hdata hkey hiv]
  simp [AES_set_encrypt_key, readBytes, hklen, hivlen, AES_ige_encrypt, hal]

/-- C4. A well-formed request (integer `taskID` `n`, task "aes-encrypt", `bytes` of a
length that is a positive multiple of 16, `keyBytes` and `ivBytes` of 32 bytes) gets
exactly one response; its `taskID` is `n` and its `result` is a byte buffer of exactly
the length of `bytes`.  The block primitive is taken to return 16-byte blocks. -/
theorem well_formed_request_answered (c : BlockCipher) (d : List (String × Var)) (n : Int)
    (data key iv : List Nat)
    (hid : Get d "taskID" = Var.int n) (htask : Get d "task" = Var.string "aes-encrypt")
    (hdata : Get d "bytes" = Var.arrayBuffer data)
    (hkey : Get d "keyBytes" = Var.arrayBuffer key)
    (hiv : Get d "ivBytes" = Var.arrayBuffer iv)
    (hklen : key.length = 32) (hivlen : iv.length = 32)
    (hpos : 0 < data.length) (hal : data.length % 16 = 0)
    (hblock : ∀ x, x.length = 16 → (c.decrypt (encryptSchedule key) x).length = 16) :
    ∃ out, HandleMessage c (Var.dictionary d)
        = .ok [Var.dictionary [("taskID", Var.int n), ("result", Var.arrayBuffer out)]]
      ∧ out.length = data.length := by
  have _ := hpos
  refine ⟨_, HandleMessage_aes_ok c d n data key iv hid htask hdata hkey hiv
    (by omega) (by omega) hal, ?_⟩
  have hk : key.take 32 = key := List.take_of_length_le (by omega)
  have h1 : ((iv.take 32).take 16).length = 16 := by simp [List.length_take]; omega
  have h2 : ((iv.take 32).drop 16).length = 16 := by
    simp [List.length_drop, List.length_take]; omega
  rw [hk, igeLoop_decrypt_length c (encryptSchedule key) hblock (data.length / 16) _ _ data
    h1 h2 (by omega)]
  omega

theorem well_formed_request_answered_witness :
    ∃ out, HandleMessage toyCipher
        (Var.dictionary [("taskID", Var.int 7), ("task", Var.string "aes-encrypt"),
          ("bytes", Var.arrayBuffer (List.range 32)),
          ("keyBytes", Var.arrayBuffer (zeros 32)),
          ("ivBytes", Var.arrayBuffer (List.range 32))])
        = .ok [Var.dictionary [("taskID", Var.int 7), ("result", Var.arrayBuffer out)]]
      ∧ out.length = (List.range 32).length :=
  well_formed_request_answered toyCipher _ 7 (List.range 32) (zeros 32) (List.range 32)
    (by rfl) (by rfl) (by rfl) (by rfl) (by rfl) (by simp [zeros]) (by simp) (by simp)
    (by simp)
    (fun x hx => toyCipher_decrypt_length _ x (by simp [zeros, encryptSchedule]) hx)

/-- C6. At the request `{taskID: 1, task: "aes-encrypt", bytes: 16 zero bytes, keyBytes: 32
zero bytes, ivBytes: 32 zero bytes}` the handler posts, for every block primitive, the
block that `AES_decrypt` makes of the zero block under the encrypt schedule of the zero
key (XORed with the zero IV half): the decrypt direction.  With the small primitive
above that is not the encrypt-direction transform `BlockEncrypt(zeroKey, zeroBlock)` of
the same request. -/
theorem aes_encrypt_task_runs_decrypt_direction :
    (∀ c : BlockCipher,
      HandleMessage c
          (Var.dictionary [("taskID", Var.int 1), ("task", Var.string "aes-encrypt"),
            ("bytes", Var.arrayBuffer (zeros 16)), ("keyBytes", Var.arrayBuffer (zeros 32)),
            ("ivBytes", Var.arrayBuffer (zeros 32))])
        = .ok [Var.dictionary [("taskID", Var.int 1), ("result", Var.arrayBuffer
            (xorBytes (c.decrypt (encryptSchedule (zeros 32)) (zeros 16)) (zeros 16)))]]) ∧
    encryptIGE toyCipher (zeros 32) (zeros 32) (zeros 16)
      = .ok (toyCipher.encrypt (encryptSchedule (zeros 32)) (zeros 16)) ∧
    HandleMessage toyCipher
        (Var.dictionary [("taskID", Var.int 1), ("task", Var.string "aes-encrypt"),
          ("bytes", Var.arrayBuffer (zeros 16)), ("keyBytes", Var.arrayBuffer (zeros 32)),
          ("ivBytes", Var.arrayBuffer (zeros 32))])
      ≠ .ok [Var.dictionary [("taskID", Var.int 1), ("result", Var.arrayBuffer
          (toyCipher.encrypt (encryptSchedule (zeros 32)) (zeros 16)))]] := by
  have hrun : ∀ c : BlockCipher,
      HandleMessage c
          (Var.dictionary [("taskID", Var.int 1), ("task", Var.string "aes-encrypt"),
            ("bytes", Var.arrayBuffer (zeros 16)), ("keyBytes", Var.arrayBuffer (zeros 32)),
            ("ivBytes", Var.arrayBuffer (zeros 32))])
        = .ok [Var.dictionary [("taskID", Var.int 1), ("result", Var.arrayBuffer
            (xorBytes (c.decrypt (encryptSchedule (zeros 32)) (zeros 16)) (zeros 16)))]] := by
    intro c
    rw [HandleMessage_aes_ok c _ 1 (zeros 16) (zeros 32) (zeros 32) (by rfl) (by rfl) (by rfl)
      (by rfl) (by rfl) (by simp [zeros]) (by simp [zeros]) (by simp [zeros])]
    have hn : (zeros 16).length / 16 = 1 := by decide
    have hk : List.take 32 (zeros 32) = zeros 32 := by decide
    have h1 : List.take 16 (zeros 32) = zeros 16 := by decide
    have h2 : xorBytes (List.take 16 (zeros 16)) (List.drop 16 (zeros 32)) = zeros 16 := by
      decide
    simp only [hn, hk, igeLoop, h1, h2, List.append_nil]
  refine ⟨hrun, by rfl, ?_⟩
  rw [hrun toyCipher]
  intro h
  have h2 : xorBytes (toyCipher.decrypt (encryptSchedule (zeros 32)) (zeros 16)) (zeros 16)
      = toyCipher.encrypt (encryptSchedule (zeros 32)) (zeros 16) := by
    simpa using h
  revert h2
  decide

/-- C7. Alignment rejection: with an integer `taskID`, task "aes-encrypt", 32-byte
`keyBytes` and `ivBytes` and a `bytes` buffer whose length is not a multiple of 16, the
transform rejects the length and the handler stops there, before its `PostMessage`:
no response is posted and no partially transformed buffer leaves the handler. -/
theorem misaligned_request_dropped (c : BlockCipher) (d : List (String × Var)) (n : Int)
    (data key iv : List Nat)
    (hid : Get d "taskID" = Var.int n) (htask : Get d "task" = Var.string "aes-encrypt")
    (hdata : Get d "bytes" = Var.arrayBuffer data)
    (hkey : Get d "keyBytes" = Var.arrayBuffer key)
    (hiv : Get d "ivBytes" = Var.arrayBuffer iv)
    (hklen : key.length = 32) (hivlen : iv.length = 32)
    (hmis : data.length % 16 ≠ 0) :
    HandleMessage c (Var.dictionary d) = .error Fault.precondition := by
  have _ := hivlen
  rw [HandleMessage_aes c d n data key iv hid htask hdata hkey hiv]
  simp [AES_set_encrypt_key, readBytes, hklen, AES_ige_encrypt, hmis]

theorem misaligned_request_dropped_witness :
    HandleMessage toyCipher
        (Var.dictionary [("taskID", Var.int 7), ("task", Var.string "aes-encrypt"),
          ("bytes", Var.arrayBuffer (zeros 17)), ("keyBytes", Var.arrayBuffer (zeros 32)),
          ("ivBytes", Var.arrayBuffer (zeros 32))])
      = .error Fault.precondition :=
  misaligned_request_dropped toyCipher _ 7 (zeros 17) (zeros 32) (zeros 32)
    (by rfl) (by rfl) (by rfl) (by rfl) (by rfl) (by simp [zeros]) (by simp [zeros])
    (by simp [zeros])

/-- C8, as stated, fails: a request whose `keyBytes` has 33 bytes (and one whose `ivBytes`
has 40) is answered with a transformed buffer, and a request whose `keyBytes` has 5 bytes
makes the handler read 32 bytes from that 5-byte buffer. -/
theorem key_iv_size_not_checked :
    HandleMessage toyCipher
        (Var.dictionary [("taskID", Var.int 7), ("task", Var.string "aes-encrypt"),
          ("bytes", Var.arrayBuffer (zeros 16)), ("keyBytes", Var.arrayBuffer (zeros 33)),
          ("ivBytes", Var.arrayBuffer (zeros 32))])
      = .ok [Var.dictionary [("taskID", Var.int 7),
          ("result", Var.arrayBuffer toyOtherPattern)]] ∧
    HandleMessage toyCipher
        (Var.dictionary [("taskID", Var.int 7), ("task", Var.string "aes-encrypt"),
          ("bytes", Var.arrayBuffer (zeros 16)), ("keyBytes", Var.arrayBuffer (zeros 32)),
          ("ivBytes", Var.arrayBuffer (zeros 40))])
      = .ok [Var.dictionary [("taskID", Var.int 7),
          ("result", Var.arrayBuffer toyOtherPattern)]] ∧
    HandleMessage toyCipher
        (Var.dictionary [("taskID", Var.int 7), ("task", Var.string "aes-encrypt"),
          ("bytes", Var.arrayBuffer (zeros 16)), ("keyBytes", Var.arrayBuffer (zeros 5)),
          ("ivBytes", Var.arrayBuffer (zeros 32))])
      = .error Fault.outOfBounds := by
  refine ⟨by rfl, by rfl, by rfl⟩

/-- C8, amended. The handler does not check the size of `keyBytes` or `ivBytes`: with an
integer `taskID` `n`, task "aes-encrypt", a block-aligned `bytes` buffer and `keyBytes`
and `ivBytes` buffers of at least 32 bytes each, it posts exactly one response
`{taskID: n, result: out}` with `out` a byte buffer, the same response as for the request
that carries only the first 32 bytes of `keyBytes` and of `ivBytes`; the 32-byte key
read and the two 16-byte IV halves stay in bounds there (the call does not fault). -/
theorem key_iv_first_bytes_used (c : BlockCipher) (d : List (String × Var)) (n : Int)
    (data key iv : List Nat)
    (hid : Get d "taskID" = Var.int n) (htask : Get d "task" = Var.string "aes-encrypt")
    (hdata : Get d "bytes" = Var.arrayBuffer data)
    (hkey : Get d "keyBytes" = Var.arrayBuffer key)
    (hiv : Get d "ivBytes" = Var.arrayBuffer iv)
    (hklen : 32 ≤ key.length) (hivlen : 32 ≤ iv.length) (hal : data.length % 16 = 0) :
    ∃ out,
      HandleMessage c (Var.dictionary d)
        = .ok [Var.dictionary [("taskID", Var.int n), ("result", Var.arrayBuffer out)]] ∧
      HandleMessage c
          (Var.dictionary [("taskID", Var.int n), ("task", Var.string "aes-encrypt"),
            ("bytes", Var.arrayBuffer data), ("keyBytes", Var.arrayBuffer (key.take 32)),
            ("ivBytes", Var.arrayBuffer (iv.take 32))])
        = .ok [Var.dictionary [("taskID", Var.int n), ("result", Var.arrayBuffer out)]] := by
  refine ⟨_, HandleMessage_aes_ok c d n data key iv hid htask hdata hkey hiv
    hklen hivlen hal, ?_⟩
  have hk32 : 32 ≤ (key.take 32).length := by simp [List.length_take]; omega
  have hi32 : 32 ≤ (iv.take 32).length := by simp [List.length_take]; omega
  rw [HandleMessage_aes_ok c _ n data (key.take 32) (iv.take 32) (by rfl) (by rfl) (by rfl)
    (by rfl) (by rfl) hk32 hi32 hal]
  simp [List.take_take]

theorem key_iv_first_bytes_used_witness :
    ∃ out,
      HandleMessage toyCipher
          (Var.dictionary [("taskID", Var.int 7), ("task", Var.string "aes-encrypt"),
            ("bytes", Var.arrayBuffer (zeros 16)), ("keyBytes", Var.arrayBuffer (zeros 33)),
            ("ivBytes", Var.arrayBuffer (List.range 40))])
        = .ok [Var.dictionary [("taskID", Var.int 7), ("result", Var.arrayBuffer out)]] ∧
      HandleMessage toyCipher
          (Var.dictionary [("taskID", Var.int 7), ("task", Var.string "aes-encrypt"),
            ("bytes", Var.arrayBuffer (zeros 16)),
            ("keyBytes", Var.arrayBuffer ((zeros 33).take 32)),
            ("ivBytes", Var.arrayBuffer ((List.range 40).take 32))])
        = .ok [Var.dictionary [("taskID", Var.int 7), ("result", Var.arrayBuffer out)]] :=
  key_iv_first_bytes_used toyCipher _ 7 (zeros 16) (zeros 33) (List.range 40)
    (by rfl) (by rfl) (by rfl) (by rfl) (by rfl) (by simp [zeros]) (by simp) (by simp [zeros])

end MtprotoCrypto
